import Mathlib

/-
Shallow embedding of the Latentia job lifecycle and reconciliation engine.

Sources embedded here:
  * src/app/api/generations/route.ts            (feed pagination: GET)
  * src/src/app/api/generations/[id]/route.ts   (single fetch GET, user DELETE)
  * src/src/app/(dashboard)/review/page.tsx     (embedded manual-sync POST, the
                                                 completion reconciler)
  * src/src/hooks/useGenerations.ts             (stuck-job sweep selection)
  * src/src/hooks/useInfiniteGenerations.ts     (refetch page merge)
  * src/src/hooks/useGenerationsRealtime.ts     (dismissed-set, realtime merge)

Machine integers: ids, timestamps and user/session identifiers are modelled as
Nat; UUID strings and ISO timestamps are linearly ordered in JS (string
comparison, date comparison), and only that order is used by the code, so the
order embedding into Nat is faithful.  JSON `parameters` bags are modelled as
structures holding the fields the code reads.  Fallible JS code (try/catch)
is modelled with Option.
-/

namespace Latentia

/-- Status enum of a generation row: `processing | completed | failed |
cancelled` (src/src data model). -/
inductive Status where
  | processing
  | completed
  | failed
  | cancelled
deriving DecidableEq, Repr

/-- Terminal statuses, as tested by
`['completed', 'failed', 'cancelled'].includes(generation.status)` in the
sync endpoint (review/page.tsx line 327). -/
def Status.isTerminal : Status → Bool
  | .processing => false
  | .completed => true
  | .failed => true
  | .cancelled => true

/-! Feed pagination service, from src/app/api/generations/route.ts. -/

/-- Row of the `generations` table as seen by the feed query (the columns the
pagination logic reads: sort key, session and owner). -/
structure GenRow where
  id : Nat
  createdAt : Nat
  sessionId : Nat
  userId : Nat
deriving DecidableEq, Repr

/-- Decoded pagination cursor `{createdAt, id}` (route.ts decodeCursor). -/
structure Cursor where
  createdAt : Nat
  id : Nat
deriving DecidableEq, Repr

/-- Cursor derived from a row, modelling
`encodeCursor(lastItem.createdAt, lastItem.id)` at the decoded level. -/
def rowCursor (g : GenRow) : Cursor :=
  { createdAt := g.createdAt, id := g.id }

/-- Keyset boundary test from the route's where clause (route.ts lines 66-77):
`(createdAt < c.createdAt) OR (createdAt = c.createdAt AND id < c.id)`. -/
def keyBelow (c : Cursor) (g : GenRow) : Bool :=
  decide (g.createdAt < c.createdAt) ||
    (decide (g.createdAt = c.createdAt) && decide (g.id < c.id))

/-- Base where clause (route.ts lines 52-55): rows of the requested session
owned by the authenticated caller. -/
def baseWhere (sessionId userId : Nat) (g : GenRow) : Bool :=
  decide (g.sessionId = sessionId) && decide (g.userId = userId)

/-- Optional cursor conjunct: no cursor imposes no boundary. -/
def keyBelowOpt (c : Option Cursor) (g : GenRow) : Bool :=
  match c with
  | none => true
  | some c => keyBelow c g

/-- Full where clause (route.ts lines 61-78): the base filter, conjoined with
the keyset boundary when a cursor decoded successfully.  When `c = none` this
is extensionally the bare base filter, as in the source. -/
def whereClause (sessionId userId : Nat) (c : Option Cursor) (g : GenRow) : Bool :=
  baseWhere sessionId userId g && keyBelowOpt c g

/-- Strict "b sorts strictly after a" relation of the order
`ORDER BY createdAt DESC, id DESC`. -/
def rowAfter (a b : GenRow) : Prop :=
  b.createdAt < a.createdAt ∨ (b.createdAt = a.createdAt ∧ b.id < a.id)

instance : DecidableRel rowAfter := fun a b => by
  unfold rowAfter; infer_instance

/-- Snapshot stored in feed order: pairwise strictly descending by
`(createdAt DESC, id DESC)`.  This models the `orderBy` of the query: the
rows the database hands back are in exactly this order. -/
def sortedDesc (l : List GenRow) : Prop := l.Pairwise rowAfter

/-- Response shape `{data, nextCursor, hasMore}` of the feed endpoint. -/
structure FeedResponse where
  data : List GenRow
  nextCursor : Option Cursor
  hasMore : Bool
deriving DecidableEq, Repr

/-- Feed page computation (route.ts GET, lines 82-164): fetch `limit + 1`
rows matching the where clause in feed order, set `hasMore` when more than
`limit` came back, return the first `limit` rows, and derive `nextCursor`
from the last returned row exactly when `hasMore` (and a last row) exists.
`db` is the table snapshot already in feed order. -/
def getPage (db : List GenRow) (sessionId userId : Nat)
    (c : Option Cursor) (limit : Nat) : FeedResponse :=
  let generations := (db.filter (whereClause sessionId userId c)).take (limit + 1)
  let hasMore := decide (limit < generations.length)
  let data := if hasMore then generations.take limit else generations
  let lastItem := data.getLast?
  let nextCursor := if hasMore then lastItem.map rowCursor else none
  { data := data, nextCursor := nextCursor, hasMore := hasMore }

/-- Feed GET entry point over a string cursor (route.ts lines 40-78).  The
node builtin pipeline inside `decodeCursor` (Buffer base64url decode,
JSON.parse, Date construction, all wrapped in try/catch returning null) is
abstracted as a total function `dec` into `Option Cursor`; `none` models the
null return.  A request with no cursor, or whose cursor fails to decode,
runs with the base filter alone. -/
def GETgenerations (dec : String → Option Cursor) (db : List GenRow)
    (callerId sessionId : Nat) (cursorStr : Option String) (limit : Nat) :
    FeedResponse :=
  let decoded : Option Cursor :=
    match cursorStr with
    | none => none
    | some s => dec s
  getPage db sessionId callerId decoded limit

/-- Repeatedly request pages, feeding each `nextCursor` back, concatenating
the `data` arrays, with fuel for termination (the client loop in
useInfiniteGenerations stops when `nextCursor` is absent). -/
def paginateFrom (db : List GenRow) (sessionId userId limit : Nat) :
    Nat → Option Cursor → List GenRow
  | 0, _ => []
  | fuel + 1, c =>
    let page := getPage db sessionId userId c limit
    match page.nextCursor with
    | none => page.data
    | some c2 => page.data ++ paginateFrom db sessionId userId limit fuel (some c2)

/-- Full pagination walk starting from no cursor. -/
def paginateAll (db : List GenRow) (sessionId userId limit fuel : Nat) : List GenRow :=
  paginateFrom db sessionId userId limit fuel none

instance (l : List GenRow) : Decidable (sortedDesc l) := by
  unfold sortedDesc; infer_instance

/-- Concrete three-row snapshot (newest first) used by witnesses. -/
def sampleFeedDb : List GenRow :=
  [{ id := 3, createdAt := 30, sessionId := 7, userId := 9 },
   { id := 2, createdAt := 20, sessionId := 7, userId := 9 },
   { id := 1, createdAt := 10, sessionId := 7, userId := 9 }]

/-! Completion reconciler: the manual-sync endpoint
`POST /api/generations/[id]/sync`, embedded in
src/src/app/(dashboard)/review/page.tsx after the page component
(lines 251-509).  The auth-session lookup and the 404 branch leave no state
behind; the model starts from the fetched generation row. -/

/-- Output row columns the reconciler writes (prisma.output.createMany). -/
structure OutputRow where
  generationId : Nat
  fileUrl : String
  fileType : String
  width : Nat
  height : Nat
  duration : Option Nat
deriving DecidableEq, Repr

/-- Fields of the JSON `parameters` bag that the sync endpoint reads or
writes. -/
structure GenParams where
  replicatePredictionId : Option String
  error : Option String
  aspectRatio : Option String
  duration : Option Nat
  syncedAt : Option String
  syncReason : Option String
deriving DecidableEq, Repr

/-- Generation row as the sync endpoint sees it, including the joined
session type (image or video). -/
structure SyncJob where
  id : Nat
  userId : Nat
  status : Status
  parameters : GenParams
  sessionType : String
deriving DecidableEq, Repr

/-- Job-store slice the sync endpoint touches: the generation row and its
output rows. -/
structure SyncState where
  job : SyncJob
  outputs : List OutputRow
deriving DecidableEq, Repr

/-- Output field of a Replicate prediction: an array of URLs, a single URL
string, or anything else (absent). -/
inductive ReplOutput where
  | arr (urls : List String)
  | str (url : String)
  | other
deriving DecidableEq, Repr

/-- Replicate poll result shape used by the endpoint. -/
structure ReplicateStatusR where
  status : String
  output : ReplOutput
  error : Option String
deriving DecidableEq, Repr

/-- URL parsing of the succeeded branch (lines 348-356): array taken as is,
string wrapped, anything else yields no URLs. -/
def parseOutputUrls (o : ReplOutput) : List String :=
  match o with
  | .arr urls => urls
  | .str u => [u]
  | .other => []

/-- JS truthy-or on an optional string: empty string counts as falsy. -/
def jsOrStr (v : Option String) (d : String) : String :=
  match v with
  | some s => if s = "" then d else s
  | none => d

/-- JS truthy-or on an optional number: 0 counts as falsy. -/
def jsOrNat (v : Option Nat) (d : Nat) : Nat :=
  match v with
  | some 0 => d
  | some n => n
  | none => d

/-- Dimension lookup by aspect ratio (lines 421-431), with the 16:9 default
for unknown ratios. -/
def dimensionsFor (aspectRatio : String) : Nat × Nat :=
  if aspectRatio = "1:1" then (1024, 1024)
  else if aspectRatio = "16:9" then (1344, 768)
  else if aspectRatio = "9:16" then (768, 1344)
  else if aspectRatio = "4:3" then (1184, 864)
  else if aspectRatio = "3:4" then (864, 1184)
  else (1344, 768)

/-- Output record construction loop (lines 379-441).  `transfer` models the
download-upload-getPublicUrl pipeline: `some storageUrl` on success, `none`
on any throw, in which case the provider's original URL is kept as fallback.
`job` is the generation row the trigger read. -/
def buildOutputRecords (transfer : String → Option String) (job : SyncJob)
    (urls : List String) : List OutputRow :=
  urls.map fun u =>
    let dim := dimensionsFor (jsOrStr job.parameters.aspectRatio "16:9")
    { generationId := job.id
      fileUrl := (transfer u).getD u
      fileType := job.sessionType
      width := dim.1
      height := dim.2
      duration := if job.sessionType = "video"
        then some (jsOrNat job.parameters.duration 5) else none }

/-- Terminal write of the success path (lines 449-460):
`prisma.generation.update` keyed on the id alone — the data sets status
completed and rewrites parameters from the read-time bag `base` plus
syncedAt/syncReason.  There is no condition on the current status. -/
def updateToCompleted (st : SyncState) (base : GenParams) (nowIso : String) :
    SyncState :=
  { st with
    job := { st.job with
      status := .completed
      parameters := { base with
        syncedAt := some nowIso
        syncReason := some "manual" } } }

/-- Terminal write of the failure paths (lines 358-369 and 470-481):
`prisma.generation.update` keyed on the id alone, setting status failed and
an error string over the read-time bag `base`.  No status condition. -/
def updateToFailed (st : SyncState) (base : GenParams) (err nowIso : String) :
    SyncState :=
  { st with
    job := { st.job with
      status := .failed
      parameters := { base with
        error := some err
        syncedAt := some nowIso } } }

/-- Output insertion (lines 444-447): `prisma.output.createMany`. -/
def createOutputs (st : SyncState) (recs : List OutputRow) : SyncState :=
  { st with outputs := st.outputs ++ recs }

/-- Response classification of the sync endpoint. -/
inductive SyncResponse where
  | unauthorized
  | forbidden
  | badRequest
  | alreadyTerminal
  | syncedCompleted (outputCount : Nat)
  | failedNoOutputs
  | syncedFailed
  | stillProcessing
deriving DecidableEq, Repr

/-- Sequential execution of the sync endpoint (lines 272-509): auth check,
ownership check, prediction-id check, the terminal-status early return (the
idempotency guard), then the branch on the Replicate status.  `repl` is the
poll result, `caller` the authenticated user (`none` for a bad token). -/
def syncPost (transfer : String → Option String) (nowIso : String)
    (caller : Option Nat) (st : SyncState) (repl : ReplicateStatusR) :
    SyncState × SyncResponse :=
  match caller with
  | none => (st, .unauthorized)
  | some uid =>
    if st.job.userId ≠ uid then (st, .forbidden)
    else
      match st.job.parameters.replicatePredictionId with
      | none => (st, .badRequest)
      | some _ =>
        if st.job.status.isTerminal then (st, .alreadyTerminal)
        else if repl.status = "succeeded" then
          let outputUrls := parseOutputUrls repl.output
          if outputUrls.length = 0 then
            (updateToFailed st st.job.parameters
              "Replicate succeeded but no output URLs found" nowIso,
             .failedNoOutputs)
          else
            let recs := buildOutputRecords transfer st.job outputUrls
            (updateToCompleted (createOutputs st recs) st.job.parameters nowIso,
             .syncedCompleted recs.length)
        else if repl.status = "failed" ∨ repl.status = "canceled" then
          (updateToFailed st st.job.parameters
            (jsOrStr repl.error ("Replicate " ++ repl.status)) nowIso,
           .syncedFailed)
        else (st, .stillProcessing)

/-! Interleaving model for two concurrent reconciliation triggers running
the sync endpoint on the same job.  Each trigger is split at its await
points into an atomic read phase (prisma findUnique, after which the
ownership, prediction-id and terminal-status checks are decided on that
snapshot) and an atomic write phase (output createMany + generation update,
applied to the then-current store).  The awaits between them (Replicate
poll, download, upload) are the yield points. -/

/-- Shared state during a two-trigger interleaving: the job store plus each
trigger's read-phase snapshot of the generation row. -/
structure ConcState where
  store : SyncState
  snap1 : Option SyncJob
  snap2 : Option SyncJob
deriving DecidableEq, Repr

/-- Atomic steps available to the scheduler. -/
inductive ConcOp where
  | read1
  | read2
  | write1
  | write2
deriving DecidableEq, Repr

/-- Write phase of the sync endpoint for a trigger whose read phase
snapshotted `snap`: nothing runs when the read never happened, the snapshot
had no prediction id, or the snapshot status was terminal (the early return
fired at read time).  Otherwise the source's writes run against the current
store, keyed on id alone and unconditional on the current status, with the
parameters bag rebuilt from the snapshot (the spread of the read-time
params_data). -/
def syncWritePhase (transfer : String → Option String) (repl : ReplicateStatusR)
    (nowIso : String) (snap : Option SyncJob) (st : SyncState) : SyncState :=
  match snap with
  | none => st
  | some j =>
    match j.parameters.replicatePredictionId with
    | none => st
    | some _ =>
      if j.status.isTerminal then st
      else if repl.status = "succeeded" then
        let outputUrls := parseOutputUrls repl.output
        if outputUrls.length = 0 then
          updateToFailed st j.parameters
            "Replicate succeeded but no output URLs found" nowIso
        else
          updateToCompleted
            (createOutputs st (buildOutputRecords transfer j outputUrls))
            j.parameters nowIso
      else if repl.status = "failed" ∨ repl.status = "canceled" then
        updateToFailed st j.parameters
          (jsOrStr repl.error ("Replicate " ++ repl.status)) nowIso
      else st

/-- One interleaving step: a read snapshots the current row, a write applies
that trigger's write phase to the current store. -/
def concStep (transfer : String → Option String) (r1 r2 : ReplicateStatusR)
    (now1 now2 : String) (cs : ConcState) : ConcOp → ConcState
  | .read1 => { cs with snap1 := some cs.store.job }
  | .read2 => { cs with snap2 := some cs.store.job }
  | .write1 => { cs with store := syncWritePhase transfer r1 now1 cs.snap1 cs.store }
  | .write2 => { cs with store := syncWritePhase transfer r2 now2 cs.snap2 cs.store }

/-- Run a schedule of interleaved steps from an initial state. -/
def concRun (transfer : String → Option String) (r1 r2 : ReplicateStatusR)
    (now1 now2 : String) (cs : ConcState) (ops : List ConcOp) : ConcState :=
  ops.foldl (concStep transfer r1 r2 now1 now2) cs

/-- Concrete pending Replicate job used by witnesses and counterexamples. -/
def cexJob : SyncJob :=
  { id := 1
    userId := 4
    status := .processing
    parameters :=
      { replicatePredictionId := some "pred-1"
        error := none
        aspectRatio := none
        duration := none
        syncedAt := none
        syncReason := none }
    sessionType := "image" }

/-- Initial interleaving state: the pending job, no outputs, no snapshots. -/
def cexState0 : ConcState :=
  { store := { job := cexJob, outputs := [] }, snap1 := none, snap2 := none }

/-- Success poll result carrying one output URL. -/
def cexR1 : ReplicateStatusR :=
  { status := "succeeded", output := .str "u1", error := none }

/-- Failure poll result. -/
def cexR2 : ReplicateStatusR :=
  { status := "failed", output := .other, error := some "boom" }

/-! Client reconciliation merger: src/src/hooks/useGenerationsRealtime.ts
and src/src/hooks/useInfiniteGenerations.ts. -/

/-- Client-side record of a generation (the fields the merge logic reads).
Outputs are kept as a list of output ids. -/
structure ClientGen where
  id : Nat
  clientId : Option Nat
  status : Status
  createdAt : Nat
  outputs : List Nat
deriving DecidableEq, Repr

/-- One cached page of the infinite generations query. -/
structure ClientPage where
  data : List ClientGen
  nextCursor : Option String
  hasMore : Bool
deriving DecidableEq, Repr

/-- react-query InfiniteData for the generations query; the merge logic only
reads `pages`. -/
structure ClientCache where
  pages : List ClientPage
deriving DecidableEq, Repr

/-- Dismissed-set insertion for one viewing session
(useGenerationsRealtime.ts markGenerationDismissed, lines 29-33). -/
def markGenerationDismissed (ds : List Nat) (generationId : Nat) : List Nat :=
  if generationId ∈ ds then ds else generationId :: ds

/-- Dismissed-set membership (isGenerationDismissed, lines 38-40). -/
def isGenerationDismissed (ds : List Nat) (generationId : Nat) : Bool :=
  decide (generationId ∈ ds)

/-- updateCacheStatus on one page (lines 95-107): find the generation by id;
when present with a different status, overwrite its status with the incoming
one; report whether an update happened. -/
def updateCacheStatusPage (generationId : Nat) (newStatus : Status)
    (page : ClientPage) : ClientPage × Bool :=
  match page.data.findIdx? (fun gen => decide (gen.id = generationId)) with
  | none => (page, false)
  | some i =>
    match page.data.get? i with
    | none => (page, false)
    | some g =>
      if g.status ≠ newStatus then
        ({ page with data := page.data.set i { g with status := newStatus } }, true)
      else (page, false)

/-- updateCacheStatus over the whole infinite cache (lines 83-113): map the
page update over all pages; a missing cache stays missing and reports no
update. -/
def updateCacheStatus (generationId : Nat) (newStatus : Status)
    (cache : Option ClientCache) : Option ClientCache × Bool :=
  match cache with
  | none => (none, false)
  | some old =>
    let results := old.pages.map (updateCacheStatusPage generationId newStatus)
    (some { pages := results.map Prod.fst }, results.any Prod.snd)

/-- Cache merge step of fetchAndMergeGeneration (lines 155-168): in a page
holding the generation, replace the record wholesale by the fetched one,
preserving only the cached clientId for stable React keys. -/
def mergeFetchedPage (generationId : Nat) (fetched : ClientGen)
    (page : ClientPage) : ClientPage :=
  match page.data.findIdx? (fun gen => decide (gen.id = generationId)) with
  | none => page
  | some i =>
    match page.data.get? i with
    | none => page
    | some g =>
      { page with data := page.data.set i { fetched with clientId := g.clientId } }

/-- fetchAndMergeGeneration (lines 117-197), successful-fetch path: a
dismissed id is skipped before any fetch; otherwise the fetched generation
replaces the cached record in every page that holds it. -/
def fetchAndMergeGeneration (ds : List Nat) (generationId : Nat)
    (fetched : ClientGen) (cache : Option ClientCache) : Option ClientCache :=
  if isGenerationDismissed ds generationId then cache
  else
    match cache with
    | none => none
    | some old =>
      some { pages := old.pages.map (mergeFetchedPage generationId fetched) }

/-- JS truthy-or on optional client ids: the first present value wins. -/
def jsOrOpt (a b : Option Nat) : Option Nat :=
  match a with
  | some x => some x
  | none => b

/-- Old-generation lookup map of mergeGenerationsData (useInfiniteGenerations
lines 17-22): a Map filled page by page, later insertions for the same id
overwriting earlier ones — so a lookup finds the last occurrence. -/
def oldGenLookup (pages : List ClientPage) (generationId : Nat) : Option ClientGen :=
  ((pages.map (fun p => p.data)).flatten).reverse.find?
    (fun g => decide (g.id = generationId))

/-- Record merge of mergeGenerationsData (lines 26-45): keep the cached
clientId, and keep the cached outputs when the incoming record has none
while the cache had some; otherwise take the incoming record's fields. -/
def mergeRecord (lookup : Nat → Option ClientGen) (newGen : ClientGen) : ClientGen :=
  match lookup newGen.id with
  | none => newGen
  | some oldGen =>
    let clientId := jsOrOpt oldGen.clientId newGen.clientId
    let outputs :=
      if newGen.outputs = [] ∧ oldGen.outputs ≠ [] then oldGen.outputs
      else newGen.outputs
    { newGen with clientId := clientId, outputs := outputs }

/-- Recent-processing preservation window (line 52). -/
def RECENT_THRESHOLD_MS : Nat := 30 * 1000

/-- mergeGenerationsData (lines 10-84): no old cache hands back the fresh
data; otherwise each fresh page is merged record-wise, and the first page
additionally keeps recent processing generations of the old first page that
the fresh response is missing, prepending them.  `now` is Date.now(). -/
def mergeGenerationsData (now : Nat) (oldData : Option ClientCache)
    (newData : ClientCache) : ClientCache :=
  match oldData with
  | none => newData
  | some old =>
    let lookup := oldGenLookup old.pages
    let mergedPages := newData.pages.enum.map (fun pi =>
      let newPage := pi.2
      let mergedData := newPage.data.map (mergeRecord lookup)
      if pi.1 = 0 then
        let newGenIds := newPage.data.map (fun g => g.id)
        match old.pages.head? with
        | none => { newPage with data := mergedData }
        | some oldPage0 =>
          let missingRecentProcessing := oldPage0.data.filter (fun og =>
            decide (og.id ∉ newGenIds) && decide (og.status = .processing) &&
              decide (now - og.createdAt < RECENT_THRESHOLD_MS))
          if missingRecentProcessing = [] then { newPage with data := mergedData }
          else { newPage with data := missingRecentProcessing ++ mergedData }
      else { newPage with data := mergedData })
    { pages := mergedPages }

/-- Realtime postgres_changes payloads (lines 217-284): UPDATE and INSERT
carry the new row (id and status), DELETE carries only the old row's id. -/
inductive RealtimeEvent where
  | update (id : Nat) (status : Status)
  | insert (id : Nat) (status : Status)
  | delete (oldId : Nat)
deriving DecidableEq, Repr

/-- Deduplication key `eventType-id-status` (line 219); for DELETE the new
row is absent. -/
def eventKey : RealtimeEvent → String × Option Nat × Option Status
  | .update i s => ("UPDATE", some i, some s)
  | .insert i s => ("INSERT", some i, some s)
  | .delete _ => ("DELETE", none, none)

/-- Cache membership test of the INSERT branch (lines 255-260). -/
def cacheContains (cache : Option ClientCache) (generationId : Nat) : Bool :=
  match cache with
  | none => false
  | some c => c.pages.any (fun p => p.data.any (fun g => decide (g.id = generationId)))

/-- Cache removal of the DELETE branch (lines 270-282). -/
def removeFromCache (cache : Option ClientCache) (generationId : Nat) :
    Option ClientCache :=
  match cache with
  | none => none
  | some c =>
    some { pages := c.pages.map (fun p =>
      { p with data := p.data.filter (fun g => decide (g.id ≠ generationId)) }) }

/-- Client-side state the realtime handler owns: the infinite cache, the
session's dismissed set, the dedup key, and whether a debounced full
invalidation has been scheduled. -/
structure ClientState where
  cache : Option ClientCache
  dismissed : List Nat
  lastEvent : Option (String × Option Nat × Option Status)
  invalidateScheduled : Bool
deriving DecidableEq, Repr

/-- Realtime event handler (lines 217-284).  `fetchResult` models the
single-generation GET of fetchAndMergeGeneration: `none` is a failed fetch,
which falls back to scheduling the debounced invalidation.  Dedup first
(line 222), then the dismissed-id drop for events carrying a new row
(line 231), then the per-event-type branches. -/
def handleRealtimeEvent (fetchResult : Nat → Option ClientGen)
    (st : ClientState) (ev : RealtimeEvent) : ClientState :=
  let ek := eventKey ev
  if st.lastEvent = some ek then st
  else
    let st1 := { st with lastEvent := some ek }
    match ev with
    | .update i s =>
      if isGenerationDismissed st1.dismissed i then st1
      else if s = .completed ∨ s = .failed then
        let c1 := (updateCacheStatus i s st1.cache).1
        match fetchResult i with
        | none => { st1 with cache := c1, invalidateScheduled := true }
        | some gen =>
          { st1 with cache := fetchAndMergeGeneration st1.dismissed i gen c1 }
      else
        let r := updateCacheStatus i s st1.cache
        if r.2 then { st1 with cache := r.1 }
        else { st1 with cache := r.1, invalidateScheduled := true }
    | .insert i _ =>
      if isGenerationDismissed st1.dismissed i then st1
      else if cacheContains st1.cache i then st1
      else { st1 with invalidateScheduled := true }
    | .delete oldId =>
      { st1 with
        dismissed := markGenerationDismissed st1.dismissed oldId
        cache := removeFromCache st1.cache oldId }

/-! Stuck-job sweep: src/src/hooks/useGenerations.ts
checkAndCleanupStuckGenerations (lines 62-109). -/

/-- Generation fields the sweep reads and the cleanup writes. -/
structure SweepGen where
  id : Nat
  status : Status
  createdAt : Nat
  lastStep : Option String
  error : Option String
deriving DecidableEq, Repr

/-- Hard-timeout threshold (line 64). -/
def TWO_MINUTES : Nat := 2 * 60 * 1000

/-- Stuck test (lines 86-91): still processing and strictly older than the
2-minute hard timeout.  JS computes a signed `now - createdAt`; a future
createdAt gives a negative age failing the comparison, exactly as the
truncated Nat subtraction does. -/
def isStuck (now : Nat) (g : SweepGen) : Bool :=
  decide (g.status = .processing) && decide (now - g.createdAt > TWO_MINUTES)

/-- Selection of the sweep (lines 86-91): the stuck generations handed to
the cleanup endpoint. -/
def stuckGenerations (now : Nat) (gens : List SweepGen) : List SweepGen :=
  gens.filter (isStuck now)

/-- Modelled from the spec: the cleanup endpoint
`/api/admin/cleanup-stuck-generations` that the sweep invokes
(useGenerations.ts line 98) is not part of the source tree.  Per spec
section 4.3 it reconciles each stuck processing job with a synthetic failure
(`error = "Processing timed out"`), and per the reconciler guard of spec
section 4.2 — matched by the repository's
scripts/sql/SUPABASE_CHECK_STUCK_GENERATIONS.sql cleanup query, whose UPDATE
is restricted to `status = 'processing'` rows older than 2 minutes — it
touches only jobs still in processing. -/
def cleanupStuckOne (now : Nat) (g : SweepGen) : SweepGen :=
  if isStuck now g then
    { g with status := .failed, error := some "Processing timed out" }
  else g

/-- Modelled from the spec: one cleanup sweep tick over the job list. -/
def cleanupStuckGenerations (now : Nat) (gens : List SweepGen) : List SweepGen :=
  gens.map (cleanupStuckOne now)

/-- Character-sequence helpers for the spec's required error text. -/
def seqStartsWith : List Char → List Char → Bool
  | _, [] => true
  | [], _ :: _ => false
  | c :: cs, d :: ds => decide (c = d) && seqStartsWith cs ds

/-- Substring search on character lists. -/
def seqContains : List Char → List Char → Bool
  | [], needle => needle.isEmpty
  | c :: cs, needle => seqStartsWith (c :: cs) needle || seqContains cs needle

/-- Substring test for the error text required by the spec. -/
def containsTimedOut (s : String) : Bool :=
  seqContains s.data "timed out".data

/-! User delete endpoint: src/src/app/api/generations/[id]/route.ts DELETE
(lines 134-207). -/

/-- Generation row fields the delete endpoint reads. -/
structure DbGen where
  id : Nat
  userId : Nat
  status : Status
deriving DecidableEq, Repr

/-- Output row: id and parent generation. -/
structure DbOutput where
  id : Nat
  generationId : Nat
deriving DecidableEq, Repr

/-- Job store: the generations and outputs tables. -/
structure DbState where
  gens : List DbGen
  outputs : List DbOutput
deriving DecidableEq, Repr

/-- Response classification of the delete endpoint. -/
inductive DeleteResponse where
  | unauthorized
  | notFound
  | forbidden
  | badStatus
  | deleted (id : Nat)
deriving DecidableEq, Repr

/-- DELETE handler (lines 134-207): auth, findUnique, ownership check, the
status precondition (only cancelled or failed may be deleted), then
deleteMany of the child outputs and delete of the generation. -/
def deleteGeneration (db : DbState) (caller : Option Nat) (generationId : Nat) :
    DbState × DeleteResponse :=
  match caller with
  | none => (db, .unauthorized)
  | some uid =>
    match db.gens.find? (fun g => decide (g.id = generationId)) with
    | none => (db, .notFound)
    | some gen =>
      if gen.userId ≠ uid then (db, .forbidden)
      else if ¬ (gen.status = .cancelled ∨ gen.status = .failed) then
        (db, .badStatus)
      else
        ({ gens := db.gens.filter (fun g => decide (g.id ≠ generationId))
           outputs := db.outputs.filter (fun o => decide (o.generationId ≠ generationId)) },
         .deleted generationId)

/-! Order lemmas for the keyset relation. -/

theorem rowAfter_irrefl (a : GenRow) : ¬ rowAfter a a := by
  unfold rowAfter; omega

theorem rowAfter_asymm {a b : GenRow} (h : rowAfter a b) : ¬ rowAfter b a := by
  unfold rowAfter at *; omega

theorem rowAfter_trans {a b c : GenRow} (h1 : rowAfter a b) (h2 : rowAfter b c) :
    rowAfter a c := by
  unfold rowAfter at *; omega

theorem keyBelow_rowCursor (x y : GenRow) :
    keyBelow (rowCursor x) y = decide (rowAfter x y) := by
  simp only [keyBelow, rowCursor, rowAfter]
  by_cases h1 : y.createdAt < x.createdAt <;>
    by_cases h2 : y.createdAt = x.createdAt <;>
      by_cases h3 : y.id < x.id <;> simp [h1, h2, h3]

theorem sortedDesc_filter (p : GenRow → Bool) {l : List GenRow}
    (h : sortedDesc l) : sortedDesc (l.filter p) :=
  h.filter p

theorem sortedDesc_nodup {l : List GenRow} (h : sortedDesc l) : l.Nodup := by
  refine List.Pairwise.imp ?_ h
  intro a b hab he
  subst he
  exact rowAfter_irrefl a hab

/-- Over a strictly descending snapshot, the rows strictly below the cursor
taken from the last row of the first `n` rows are exactly the rows after
position `n`: the boundary splits the snapshot with no overlap and no gap. -/
theorem filter_after_getLast_take {l : List GenRow} {n : Nat} {x : GenRow}
    (hs : sortedDesc l) (hx : (l.take n).getLast? = some x) :
    l.filter (keyBelow (rowCursor x)) = l.drop n := by
  obtain ⟨A, hA⟩ := List.getLast?_eq_some_iff.mp hx
  have hsplit : l = (A ++ [x]) ++ l.drop n := by
    rw [← hA, List.take_append_drop]
  have hs2 : List.Pairwise rowAfter ((A ++ [x]) ++ l.drop n) := by
    rw [← hsplit]; exact hs
  calc l.filter (keyBelow (rowCursor x))
      = ((A ++ [x]) ++ l.drop n).filter (keyBelow (rowCursor x)) := by rw [← hsplit]
    _ = l.drop n := ?_
  rw [List.pairwise_append] at hs2
  obtain ⟨h1, -, h3⟩ := hs2
  rw [List.pairwise_append] at h1
  obtain ⟨-, -, hAx⟩ := h1
  rw [List.filter_append, List.filter_append]
  have e1 : A.filter (keyBelow (rowCursor x)) = [] := by
    rw [List.filter_eq_nil_iff]
    intro a ha
    rw [keyBelow_rowCursor, decide_eq_true_eq]
    exact rowAfter_asymm (hAx a ha x (List.mem_singleton.mpr rfl))
  have e2 : List.filter (keyBelow (rowCursor x)) [x] = [] := by
    rw [List.filter_eq_nil_iff]
    intro a ha
    rw [List.mem_singleton] at ha
    subst ha
    rw [keyBelow_rowCursor, decide_eq_true_eq]
    exact rowAfter_irrefl a
  have e3 : (l.drop n).filter (keyBelow (rowCursor x)) = l.drop n := by
    rw [List.filter_eq_self]
    intro b hb
    rw [keyBelow_rowCursor, decide_eq_true_eq]
    exact h3 x (by simp) b hb
  rw [e1, e2, e3, List.nil_append, List.nil_append]

theorem keyBelow_true_iff (c : Cursor) (g : GenRow) :
    keyBelow c g = true ↔
      g.createdAt < c.createdAt ∨ (g.createdAt = c.createdAt ∧ g.id < c.id) := by
  simp [keyBelow]

/-- A row below the boundary of a row that itself satisfies an (optional)
cursor conjunct also satisfies that conjunct: boundaries only narrow. -/
theorem keyBelowOpt_step {c : Option Cursor} {x : GenRow}
    (hx : keyBelowOpt c x = true) (y : GenRow)
    (hy : keyBelow (rowCursor x) y = true) : keyBelowOpt c y = true := by
  cases c with
  | none => rfl
  | some c =>
    simp only [keyBelowOpt] at *
    rw [keyBelow_rowCursor, decide_eq_true_eq] at hy
    rw [keyBelow_true_iff] at *
    unfold rowAfter at hy
    omega

/-- Splitting the full where clause into base filter then cursor conjunct. -/
theorem filter_whereClause (db : List GenRow) (sid uid : Nat) (c : Option Cursor) :
    db.filter (whereClause sid uid c) =
      (db.filter (baseWhere sid uid)).filter (keyBelowOpt c) := by
  rw [List.filter_filter]
  apply List.filter_congr
  intro g _
  simp [whereClause, Bool.and_comm]

/-- Filtering by a boundary below a row satisfying the old cursor conjunct
gives the same rows whether or not the old conjunct is kept. -/
theorem filter_narrow (S : List GenRow) {c : Option Cursor} {x : GenRow}
    (hx : keyBelowOpt c x = true) :
    (S.filter (keyBelowOpt c)).filter (keyBelow (rowCursor x)) =
      S.filter (keyBelow (rowCursor x)) := by
  rw [List.filter_filter]
  apply List.filter_congr
  intro g _
  cases h : keyBelow (rowCursor x) g with
  | false => simp
  | true => simp [keyBelowOpt_step hx g h]

/-- Master lemma: with enough fuel, walking the pages from any cursor returns
exactly the rows of the snapshot matching that cursor's where clause, in
order. -/
theorem paginateFrom_eq (db : List GenRow) (sid uid limit : Nat)
    (hs : sortedDesc db) (hlim : 0 < limit) :
    ∀ (fuel : Nat) (c : Option Cursor),
      (db.filter (whereClause sid uid c)).length ≤ fuel →
      paginateFrom db sid uid limit fuel c = db.filter (whereClause sid uid c) := by
  intro fuel
  induction fuel with
  | zero =>
    intro c hc
    have hnil : db.filter (whereClause sid uid c) = [] :=
      List.length_eq_zero.mp (Nat.le_zero.mp hc)
    simp [paginateFrom, hnil]
  | succ fuel ih =>
    intro c hc
    have hT : sortedDesc (db.filter (whereClause sid uid c)) :=
      sortedDesc_filter _ hs
    set T := db.filter (whereClause sid uid c) with hTdef
    by_cases hlen : T.length ≤ limit
    · -- no extra row fetched: hasMore is false, the whole remainder is returned
      have htake : T.take (limit + 1) = T :=
        List.take_of_length_le (by omega)
      have hnot : ¬ (limit < T.length) := by omega
      simp only [paginateFrom, getPage, htake, decide_eq_true_eq, if_neg hnot]
    · -- an extra row came back: hasMore, nextCursor from last returned row
      push_neg at hlen
      have hlen1 : (T.take (limit + 1)).length = limit + 1 := by
        rw [List.length_take]; omega
      have hdata : (T.take (limit + 1)).take limit = T.take limit := by
        rw [List.take_take]
        congr 1
        omega
      have hne : T.take limit ≠ [] := by
        have h5 : (T.take limit).length = limit := by
          rw [List.length_take]; omega
        intro hnil
        rw [hnil] at h5
        simp only [List.length_nil] at h5
        omega
      obtain ⟨x, hx⟩ : ∃ x, (T.take limit).getLast? = some x :=
        ⟨(T.take limit).getLast hne, List.getLast?_eq_getLast _ hne⟩
      have hxT : x ∈ T := by
        have : x ∈ T.take limit := by
          obtain ⟨ys, hys⟩ := List.getLast?_eq_some_iff.mp hx
          rw [hys]; simp
        exact List.mem_of_mem_take this
      have hxOpt : keyBelowOpt c x = true := by
        rw [hTdef] at hxT
        rw [filter_whereClause] at hxT
        exact (List.mem_filter.mp hxT).2
      have hnext : db.filter (whereClause sid uid (some (rowCursor x))) = T.drop limit := by
        rw [filter_whereClause]
        have h1 : (db.filter (baseWhere sid uid)).filter (keyBelowOpt (some (rowCursor x))) =
            (db.filter (baseWhere sid uid)).filter (keyBelow (rowCursor x)) := rfl
        rw [h1, ← filter_narrow (db.filter (baseWhere sid uid)) hxOpt,
          ← filter_whereClause db sid uid c, ← hTdef]
        exact filter_after_getLast_take hT hx
      have hlenbound : (db.filter (whereClause sid uid (some (rowCursor x)))).length ≤ fuel := by
        rw [hnext, List.length_drop]
        omega
      have hrec : paginateFrom db sid uid limit fuel (some (rowCursor x)) = T.drop limit := by
        rw [ih (some (rowCursor x)) hlenbound, hnext]
      have htriv : limit < limit + 1 := Nat.lt_succ_self limit
      simp only [paginateFrom, getPage, hlen1, decide_eq_true_eq, if_pos htriv, hdata, hx,
        Option.map_some']
      rw [hrec]
      exact List.take_append_drop limit T

/-- Every row a page returns matches the page's full where clause. -/
theorem getPage_data_subset (db : List GenRow) (sid uid : Nat) (c : Option Cursor)
    (limit : Nat) :
    (getPage db sid uid c limit).data ⊆ db.filter (whereClause sid uid c) := by
  intro g hg
  have hsub : (getPage db sid uid c limit).data ⊆
      (db.filter (whereClause sid uid c)).take (limit + 1) := by
    simp only [getPage]
    split
    · exact List.take_subset _ _
    · exact fun a ha => ha
  exact List.mem_of_mem_take (hsub hg)

/-- Dropping the cursor conjunct from the where clause leaves the base filter. -/
theorem filter_whereClause_none (db : List GenRow) (sid uid : Nat) :
    db.filter (whereClause sid uid none) = db.filter (baseWhere sid uid) := by
  apply List.filter_congr
  intro g _
  simp [whereClause, keyBelowOpt]

/-- With a positive page size, a page carries a nextCursor exactly when it
reports hasMore. -/
theorem getPage_nextCursor_isSome (db : List GenRow) (sid uid : Nat)
    (c : Option Cursor) (limit : Nat) (hlim : 0 < limit) :
    (getPage db sid uid c limit).nextCursor.isSome =
      (getPage db sid uid c limit).hasMore := by
  set T := db.filter (whereClause sid uid c) with hTdef
  by_cases hlen : limit < T.length
  · have hlen1 : (T.take (limit + 1)).length = limit + 1 := by
      rw [List.length_take]; omega
    have hdata : (T.take (limit + 1)).take limit = T.take limit := by
      rw [List.take_take]; congr 1; omega
    have hne : T.take limit ≠ [] := by
      have h5 : (T.take limit).length = limit := by
        rw [List.length_take]; omega
      intro hnil
      rw [hnil] at h5
      simp only [List.length_nil] at h5
      omega
    obtain ⟨x, hx⟩ : ∃ x, (T.take limit).getLast? = some x :=
      ⟨(T.take limit).getLast hne, List.getLast?_eq_getLast _ hne⟩
    have htriv : limit < limit + 1 := Nat.lt_succ_self limit
    simp only [getPage, hlen1, decide_eq_true_eq, if_pos htriv, hdata, hx,
      Option.map_some', Option.isSome_some]
    simp [htriv]
  · have htake : T.take (limit + 1) = T := List.take_of_length_le (by omega)
    simp only [getPage, htake, decide_eq_true_eq, if_neg hlen, Option.isSome_none]
    simp [hlen]

/-- C4: keyset pagination is complete, duplicate-free and gap-free over a
fixed snapshot: walking every successive nextCursor from the first page
concatenates to exactly the snapshot's base-filtered ordered set, with no
row twice (Nodup); and every row of a cursored page lies strictly below the
cursor boundary, so rows inserted ahead of the boundary are never visited. -/
theorem feed_pagination_complete (db : List GenRow) (sid uid limit fuel : Nat)
    (hs : sortedDesc db) (hlim : 0 < limit) (hfuel : db.length ≤ fuel) :
    paginateAll db sid uid limit fuel = db.filter (baseWhere sid uid) ∧
    (paginateAll db sid uid limit fuel).Nodup ∧
    (∀ (c : Cursor) (g : GenRow),
      g ∈ (getPage db sid uid (some c) limit).data → keyBelow c g = true) ∧
    ∀ (c : Option Cursor),
      (getPage db sid uid c limit).nextCursor.isSome =
        (getPage db sid uid c limit).hasMore := by
  have h1 : paginateAll db sid uid limit fuel = db.filter (baseWhere sid uid) := by
    rw [paginateAll, paginateFrom_eq db sid uid limit hs hlim fuel none
      (le_trans (List.length_filter_le _ _) hfuel), filter_whereClause_none]
  refine ⟨h1, ?_, ?_, fun c => getPage_nextCursor_isSome db sid uid c limit hlim⟩
  · rw [h1]
    exact sortedDesc_nodup (sortedDesc_filter _ hs)
  · intro c g hg
    have hmem : g ∈ db.filter (whereClause sid uid (some c)) :=
      getPage_data_subset db sid uid (some c) limit hg
    have hw := (List.mem_filter.mp hmem).2
    simp only [whereClause, Bool.and_eq_true] at hw
    exact hw.2

/-- Witness for C4 at a concrete snapshot, page size 2, fuel 3. -/
theorem feed_pagination_complete_witness :
    sortedDesc sampleFeedDb ∧ 0 < 2 ∧ sampleFeedDb.length ≤ 3 ∧
      paginateAll sampleFeedDb 7 9 2 3 = sampleFeedDb.filter (baseWhere 7 9) :=
  ⟨by decide, by decide, by decide,
    (feed_pagination_complete sampleFeedDb 7 9 2 3 (by decide) (by decide) (by decide)).1⟩

/-- C8: a feed request whose cursor string fails to decode is answered
exactly like a request with no cursor at all — the first page under the base
filter alone — and the decoder is total, so no decoding failure escapes the
handler. -/
theorem malformed_cursor_first_page (dec : String → Option Cursor)
    (db : List GenRow) (callerId sessionId : Nat) (s : String) (limit : Nat)
    (hdec : dec s = none) :
    GETgenerations dec db callerId sessionId (some s) limit =
        GETgenerations dec db callerId sessionId none limit ∧
      db.filter (whereClause sessionId callerId none) =
        db.filter (baseWhere sessionId callerId) := by
  constructor
  · simp [GETgenerations, hdec]
  · exact filter_whereClause_none db sessionId callerId

/-- Witness for C8 with a decoder that rejects everything. -/
theorem malformed_cursor_first_page_witness :
    (fun _ : String => (none : Option Cursor)) "zz" = none ∧
      GETgenerations (fun _ : String => none) sampleFeedDb 9 7 (some "zz") 2 =
        GETgenerations (fun _ : String => none) sampleFeedDb 9 7 none 2 :=
  ⟨rfl, (malformed_cursor_first_page (fun _ => none) sampleFeedDb 9 7 "zz" 2 rfl).1⟩

/-- C10: every row the paginated feed returns satisfies the base filter —
its sessionId is the requested one and its owner is the caller — for every
decoder behavior and every client-supplied cursor string, because the
decoded cursor boundary is only conjoined to the base filter; the returned
rows are always among the base-filtered snapshot. -/
theorem cursor_cannot_widen_visibility (dec : String → Option Cursor)
    (db : List GenRow) (callerId sessionId : Nat) (cursorStr : Option String)
    (limit : Nat) (g : GenRow)
    (hg : g ∈ (GETgenerations dec db callerId sessionId cursorStr limit).data) :
    g.sessionId = sessionId ∧ g.userId = callerId ∧
      g ∈ db.filter (baseWhere sessionId callerId) := by
  have key : ∀ (c : Option Cursor), g ∈ (getPage db sessionId callerId c limit).data →
      g.sessionId = sessionId ∧ g.userId = callerId ∧
        g ∈ db.filter (baseWhere sessionId callerId) := by
    intro c hgc
    have hmem := getPage_data_subset db sessionId callerId c limit hgc
    have hgdb := (List.mem_filter.mp hmem).1
    have hw := (List.mem_filter.mp hmem).2
    simp only [whereClause, baseWhere, Bool.and_eq_true, decide_eq_true_eq] at hw
    exact ⟨hw.1.1, hw.1.2, List.mem_filter.mpr
      ⟨hgdb, by simp [baseWhere, hw.1.1, hw.1.2]⟩⟩
  cases cursorStr with
  | none => exact key none hg
  | some s => exact key (dec s) hg

/-- Helper: on a job whose status is already terminal, the sync endpoint
leaves the store untouched for every caller and every poll result. -/
theorem syncPost_terminal_noop (transfer : String → Option String)
    (nowIso : String) (caller : Option Nat) (st : SyncState)
    (repl : ReplicateStatusR) (hterm : st.job.status.isTerminal = true) :
    (syncPost transfer nowIso caller st repl).1 = st := by
  cases caller with
  | none => rfl
  | some uid =>
    simp only [syncPost]
    split
    · rfl
    · cases hpred : st.job.parameters.replicatePredictionId with
      | none => rfl
      | some p => simp [hterm]

/-- Witness for C10: a returned row on a concrete cursored request satisfies
the base filter. -/
theorem cursor_cannot_widen_visibility_witness :
    ({ id := 2, createdAt := 20, sessionId := 7, userId := 9 } : GenRow) ∈
        (GETgenerations (fun _ => some { createdAt := 25, id := 0 }) sampleFeedDb
          9 7 (some "tok") 2).data ∧
      (({ id := 2, createdAt := 20, sessionId := 7, userId := 9 } : GenRow).sessionId = 7 ∧
        ({ id := 2, createdAt := 20, sessionId := 7, userId := 9 } : GenRow).userId = 9 ∧
        ({ id := 2, createdAt := 20, sessionId := 7, userId := 9 } : GenRow) ∈
          sampleFeedDb.filter (baseWhere 7 9)) :=
  ⟨by decide, cursor_cannot_widen_visibility (fun _ => some { createdAt := 25, id := 0 })
    sampleFeedDb 9 7 (some "tok") 2 _ (by decide)⟩

/-- C1 amended (server side): sequential reconciliation status writes are
forward-only — every invocation of the sync endpoint either leaves the
status unchanged or starts from processing, so no sequential reconciliation
trace leaves a terminal state.  The client-side cache merge does not share
this property (see the counterexample). -/
theorem sync_status_forward_only (transfer : String → Option String)
    (nowIso : String) (caller : Option Nat) (st : SyncState)
    (repl : ReplicateStatusR) :
    (syncPost transfer nowIso caller st repl).1.job.status = st.job.status ∨
      st.job.status = .processing := by
  by_cases h : st.job.status.isTerminal = true
  · exact Or.inl (congrArg (fun s => s.job.status)
      (syncPost_terminal_noop transfer nowIso caller st repl h))
  · right
    cases hstat : st.job.status with
    | processing => rfl
    | completed => rw [hstat] at h; exact absurd rfl h
    | failed => rw [hstat] at h; exact absurd rfl h
    | cancelled => rw [hstat] at h; exact absurd rfl h

/-- C2 counterexample: with two reconciliation triggers interleaved as
read1, read2, write1, write2 on one pending job, the first write completes
the job and inserts an output row, and the second write still takes effect,
overwriting the completed terminal status with failed.  Both writes are
effective — the claimed status-guarded conditional update does not exist:
the update is keyed on id alone. -/
theorem concurrent_sync_double_write :
    (concRun (fun _ => none) cexR1 cexR2 "t1" "t2" cexState0
        [ConcOp.read1, ConcOp.read2, ConcOp.write1]).store.job.status =
      Status.completed ∧
    (concRun (fun _ => none) cexR1 cexR2 "t1" "t2" cexState0
        [ConcOp.read1, ConcOp.read2, ConcOp.write1]).store.outputs ≠ [] ∧
    (concRun (fun _ => none) cexR1 cexR2 "t1" "t2" cexState0
        [ConcOp.read1, ConcOp.read2, ConcOp.write1, ConcOp.write2]).store.job.status =
      Status.failed := by
  decide

/-- C2 amended: the race protection of the reconciler is only the read-time
early return — on a terminal snapshot no write phase runs, and sequentially
a terminal job is left untouched — while the terminal writes themselves are
unconditional: they set failed or completed regardless of the store's
current status. -/
theorem sync_guard_read_time_only (transfer : String → Option String)
    (nowIso : String) (caller : Option Nat) (st : SyncState)
    (repl : ReplicateStatusR) (j : SyncJob) (base : GenParams) (err : String)
    (hterm : st.job.status.isTerminal = true) :
    (syncPost transfer nowIso caller st repl).1 = st ∧
    (syncWritePhase transfer repl nowIso (some j) st = st ∨
      j.status = .processing) ∧
    (updateToFailed st base err nowIso).job.status = .failed ∧
    (updateToCompleted st base nowIso).job.status = .completed := by
  refine ⟨syncPost_terminal_noop transfer nowIso caller st repl hterm, ?_, rfl, rfl⟩
  cases hstat : j.status with
  | processing => exact Or.inr rfl
  | completed =>
    left
    simp only [syncWritePhase]
    cases j.parameters.replicatePredictionId <;> simp [hstat, Status.isTerminal]
  | failed =>
    left
    simp only [syncWritePhase]
    cases j.parameters.replicatePredictionId <;> simp [hstat, Status.isTerminal]
  | cancelled =>
    left
    simp only [syncWritePhase]
    cases j.parameters.replicatePredictionId <;> simp [hstat, Status.isTerminal]

/-- Witness for the amended C2 on a concrete terminal job. -/
theorem sync_guard_read_time_only_witness :
    ({ job := { cexJob with status := .completed }, outputs := [] } :
        SyncState).job.status.isTerminal = true ∧
      (syncPost (fun _ => none) "t1" (some 4)
        { job := { cexJob with status := .completed }, outputs := [] } cexR2).1 =
        { job := { cexJob with status := .completed }, outputs := [] } :=
  ⟨by decide,
    (sync_guard_read_time_only (fun _ => none) "t1" (some 4)
      { job := { cexJob with status := .completed }, outputs := [] } cexR2
      cexJob cexJob.parameters "e" (by decide)).1⟩

/-- C3: reconciliation is idempotent: a call on an already-terminal job
changes no job or output state for any caller and payload; and from a
pending job, a successful call inserts exactly one batch of output rows and
performs one status transition to completed, a second call with the same
payload being a no-op that reports the terminal state. -/
theorem sync_idempotent (transfer : String → Option String)
    (now1 now2 : String) (uid : Nat) (st : SyncState) (repl : ReplicateStatusR) :
    (∀ caller, st.job.status.isTerminal = true →
      (syncPost transfer now1 caller st repl).1 = st) ∧
    (st.job.userId = uid →
     st.job.parameters.replicatePredictionId ≠ none →
     st.job.status = .processing →
     repl.status = "succeeded" →
     parseOutputUrls repl.output ≠ [] →
     ((syncPost transfer now1 (some uid) st repl).1.job.status = .completed ∧
      (syncPost transfer now1 (some uid) st repl).1.outputs =
        st.outputs ++ buildOutputRecords transfer st.job (parseOutputUrls repl.output) ∧
      syncPost transfer now2 (some uid)
          ((syncPost transfer now1 (some uid) st repl).1) repl =
        ((syncPost transfer now1 (some uid) st repl).1,
          SyncResponse.alreadyTerminal))) := by
  constructor
  · intro caller hterm
    exact syncPost_terminal_noop transfer now1 caller st repl hterm
  · intro huid hpredne hstat hsucc hurls
    have hne : ¬ st.job.userId ≠ uid := by simp [huid]
    obtain ⟨p, hp⟩ : ∃ p, st.job.parameters.replicatePredictionId = some p := by
      cases hpred : st.job.parameters.replicatePredictionId with
      | none => exact absurd hpred hpredne
      | some p => exact ⟨p, rfl⟩
    have hterm0 : st.job.status.isTerminal = false := by rw [hstat]; rfl
    have hlen : ¬ ((parseOutputUrls repl.output).length = 0) := by
      rw [List.length_eq_zero]
      exact hurls
    have hstep : syncPost transfer now1 (some uid) st repl =
        (updateToCompleted
          (createOutputs st (buildOutputRecords transfer st.job (parseOutputUrls repl.output)))
          st.job.parameters now1,
         .syncedCompleted (buildOutputRecords transfer st.job (parseOutputUrls repl.output)).length) := by
      simp only [syncPost, hp, if_neg hne, hterm0, hsucc]
      simp [hlen]
    refine ⟨by rw [hstep]; rfl, by rw [hstep]; rfl, ?_⟩
    rw [hstep]
    simp only [syncPost, updateToCompleted, createOutputs]
    simp [huid, hp, Status.isTerminal]

/-- Witness for C3 on a concrete pending job with one output URL. -/
theorem sync_idempotent_witness :
    (syncPost (fun _ => none) "t1" (some 4)
        { job := cexJob, outputs := [] } cexR1).1.job.status = Status.completed ∧
    (syncPost (fun _ => none) "t1" (some 4)
        { job := cexJob, outputs := [] } cexR1).1.outputs =
      ([] : List OutputRow) ++
        buildOutputRecords (fun _ => none) cexJob (parseOutputUrls cexR1.output) ∧
    syncPost (fun _ => none) "t2" (some 4)
        ((syncPost (fun _ => none) "t1" (some 4)
          { job := cexJob, outputs := [] } cexR1).1) cexR1 =
      ((syncPost (fun _ => none) "t1" (some 4)
          { job := cexJob, outputs := [] } cexR1).1,
        SyncResponse.alreadyTerminal) :=
  (sync_idempotent (fun _ => none) "t1" "t2" 4
      { job := cexJob, outputs := [] } cexR1).2
    (by decide) (by decide) (by decide) (by decide) (by decide)

/-- C1 counterexample: a client-side cache merge transitions a job out of a
terminal state.  A cache holding the generation as completed, merged by
updateCacheStatus with an incoming processing status, ends with the
generation back in processing: the merge overwrites the cached status with
any differing incoming status, backward included. -/
theorem updateCacheStatus_leaves_terminal :
    (updateCacheStatus 1 .processing
        (some ⟨[⟨[⟨1, none, .completed, 0, [10, 11]⟩], none, false⟩]⟩)).1 =
      some ⟨[⟨[⟨1, none, .processing, 0, [10, 11]⟩], none, false⟩]⟩ := by
  decide

/-- C5 counterexample: the single-generation fetch merge wipes non-empty
cached outputs.  A cached record with two outputs, merged by
fetchAndMergeGeneration with a fetched record carrying zero outputs, ends
with an empty outputs set (only clientId survives the replacement). -/
theorem fetchAndMerge_wipes_outputs :
    fetchAndMergeGeneration [] 1 ⟨1, none, .failed, 0, []⟩
        (some ⟨[⟨[⟨1, some 5, .processing, 0, [10, 11]⟩], none, false⟩]⟩) =
      some ⟨[⟨[⟨1, some 5, .failed, 0, []⟩], none, false⟩]⟩ := by
  decide

/-- C5 amended: the refetch page merge is monotonic in outputs — the
per-record rule of mergeGenerationsData keeps the cached outputs when the
incoming record carries none and the cache had some, so a cached non-empty
outputs set never becomes empty through that merge; the single-generation
fetch merge does not share this property (see the counterexample). -/
theorem mergeRecord_preserves_outputs (lookup : Nat → Option ClientGen)
    (newGen oldGen : ClientGen) (hl : lookup newGen.id = some oldGen)
    (hold : oldGen.outputs ≠ []) :
    (mergeRecord lookup newGen).outputs ≠ [] ∧
    ((mergeRecord lookup newGen).outputs = newGen.outputs ∨
      (mergeRecord lookup newGen).outputs = oldGen.outputs) := by
  simp only [mergeRecord, hl]
  by_cases hn : newGen.outputs = []
  · rw [if_pos ⟨hn, hold⟩]
    exact ⟨hold, Or.inr rfl⟩
  · rw [if_neg (fun hc => hn hc.1)]
    exact ⟨hn, Or.inl rfl⟩

/-- Witness for the amended C5: empty incoming outputs over a non-empty
cached record keep the cached outputs. -/
theorem mergeRecord_preserves_outputs_witness :
    ((fun _ : Nat => some (⟨1, none, .completed, 0, [10]⟩ : ClientGen)) 1 =
      some (⟨1, none, .completed, 0, [10]⟩ : ClientGen)) ∧
    (mergeRecord (fun _ => some (⟨1, none, .completed, 0, [10]⟩ : ClientGen))
        ⟨1, none, .completed, 0, []⟩).outputs ≠ [] :=
  ⟨rfl,
    (mergeRecord_preserves_outputs
      (fun _ => some (⟨1, none, .completed, 0, [10]⟩ : ClientGen))
      ⟨1, none, .completed, 0, []⟩ ⟨1, none, .completed, 0, [10]⟩
      rfl (by decide)).1⟩

/-- C6 counterexample: the full refetch (poll) merge does not consult the
dismissed set.  With id 5 dismissed for the session and absent from the
cache, a refetch response containing id 5 lands in the merged feed:
mergeGenerationsData has no dismissed-set input at all, so the dismissed
job is re-added to the visible feed. -/
theorem refetch_merge_readds_dismissed :
    isGenerationDismissed (markGenerationDismissed [] 5) 5 = true ∧
    ((mergeGenerationsData 0 (some ⟨[⟨[], none, false⟩]⟩)
        ⟨[⟨[⟨5, none, .completed, 0, [20]⟩], none, false⟩]⟩).pages.any
      (fun p => p.data.any (fun g => decide (g.id = 5)))) = true := by
  decide

/-- C6 amended: realtime push events (UPDATE and INSERT) for a dismissed id
are dropped before the merge — the cache and the invalidation schedule are
untouched — and the single-generation fetch merge skips dismissed ids
unconditionally; the full refetch merge, however, does not consult the
dismissed set (see the counterexample), so only server-side deletion keeps
a dismissed job out of refetched pages. -/
theorem realtime_drops_dismissed (fetchResult : Nat → Option ClientGen)
    (st : ClientState) (i : Nat) (s : Status) (fetched : ClientGen)
    (hdis : isGenerationDismissed st.dismissed i = true) :
    (handleRealtimeEvent fetchResult st (.update i s)).cache = st.cache ∧
    (handleRealtimeEvent fetchResult st (.update i s)).invalidateScheduled =
      st.invalidateScheduled ∧
    (handleRealtimeEvent fetchResult st (.insert i s)).cache = st.cache ∧
    (handleRealtimeEvent fetchResult st (.insert i s)).invalidateScheduled =
      st.invalidateScheduled ∧
    fetchAndMergeGeneration st.dismissed i fetched st.cache = st.cache := by
  have hupd : handleRealtimeEvent fetchResult st (.update i s) =
      if st.lastEvent = some (eventKey (.update i s)) then st
      else { st with lastEvent := some (eventKey (.update i s)) } := by
    simp only [handleRealtimeEvent]
    split
    · simp
    · simp [hdis]
  have hins : handleRealtimeEvent fetchResult st (.insert i s) =
      if st.lastEvent = some (eventKey (.insert i s)) then st
      else { st with lastEvent := some (eventKey (.insert i s)) } := by
    simp only [handleRealtimeEvent]
    split
    · simp
    · simp [hdis]
  refine ⟨?_, ?_, ?_, ?_, ?_⟩
  · rw [hupd]; split <;> rfl
  · rw [hupd]; split <;> rfl
  · rw [hins]; split <;> rfl
  · rw [hins]; split <;> rfl
  · simp [fetchAndMergeGeneration, hdis]

/-- Witness for the amended C6 on a concrete dismissed id. -/
theorem realtime_drops_dismissed_witness :
    isGenerationDismissed
        ((⟨some ⟨[]⟩, [5], none, false⟩ : ClientState)).dismissed 5 = true ∧
      (handleRealtimeEvent (fun _ => none) ⟨some ⟨[]⟩, [5], none, false⟩
          (.update 5 .processing)).cache =
        ((⟨some ⟨[]⟩, [5], none, false⟩ : ClientState)).cache :=
  ⟨by decide,
    (realtime_drops_dismissed (fun _ => none) ⟨some ⟨[]⟩, [5], none, false⟩
      5 .processing ⟨5, none, .completed, 0, []⟩ (by decide)).1⟩

/-- C7: the hard-timeout sweep selects exactly the processing jobs strictly
older than the 2-minute threshold (jobs at or under the threshold, or not
in processing, are never selected); every selected job is marked failed
with error text containing "timed out"; unselected jobs are untouched; a
selected job is never reselected (a later tick on the already-failed job is
a no-op); and a sweep tick is idempotent. -/
theorem timeout_sweep_marks_failed_once (now now2 : Nat)
    (gens : List SweepGen) (g : SweepGen) :
    (g ∈ stuckGenerations now gens ↔
      g ∈ gens ∧ g.status = .processing ∧ now - g.createdAt > TWO_MINUTES) ∧
    (isStuck now g = true →
      (cleanupStuckOne now g).status = .failed ∧
      containsTimedOut ((cleanupStuckOne now g).error.getD "") = true ∧
      cleanupStuckOne now2 (cleanupStuckOne now g) = cleanupStuckOne now g) ∧
    (isStuck now g = false → cleanupStuckOne now g = g) ∧
    cleanupStuckGenerations now (cleanupStuckGenerations now gens) =
      cleanupStuckGenerations now gens := by
  have hone : ∀ (n m : Nat) (x : SweepGen), isStuck n x = true →
      cleanupStuckOne m (cleanupStuckOne n x) = cleanupStuckOne n x := by
    intro n m x hx
    have h1 : cleanupStuckOne n x =
        { x with status := .failed, error := some "Processing timed out" } := by
      simp [cleanupStuckOne, hx]
    have h2 : isStuck m
        { x with status := .failed, error := some "Processing timed out" } = false := rfl
    rw [h1]
    simp [cleanupStuckOne, h2]
  refine ⟨?_, ?_, ?_, ?_⟩
  · rw [stuckGenerations, List.mem_filter, isStuck]
    simp [and_assoc]
  · intro hg
    refine ⟨by simp [cleanupStuckOne, hg], by simp [cleanupStuckOne, hg]; rfl, hone now now2 g hg⟩
  · intro hg
    simp [cleanupStuckOne, hg]
  · rw [cleanupStuckGenerations, cleanupStuckGenerations, List.map_map]
    apply List.map_congr_left
    intro x _
    simp only [Function.comp_apply]
    by_cases hx : isStuck now x = true
    · exact hone now now x hx
    · have h1 : cleanupStuckOne now x = x := by
        simp [cleanupStuckOne, hx]
      rw [h1, h1]

/-- Witness for C7 on a job created at 0, swept at 130000 ms. -/
theorem timeout_sweep_witness :
    isStuck 130000 ⟨1, .processing, 0, none, none⟩ = true ∧
      ((cleanupStuckOne 130000 ⟨1, .processing, 0, none, none⟩).status =
          Status.failed ∧
        containsTimedOut
          ((cleanupStuckOne 130000 ⟨1, .processing, 0, none, none⟩).error.getD "") =
          true) :=
  ⟨by decide,
    ((timeout_sweep_marks_failed_once 130000 200000 []
        ⟨1, .processing, 0, none, none⟩).2.1 (by decide)).1,
    ((timeout_sweep_marks_failed_once 130000 200000 []
        ⟨1, .processing, 0, none, none⟩).2.1 (by decide)).2.1⟩

/-- C9: user delete succeeds exactly for an existing, caller-owned job in
failed or cancelled status, removing the job together with all its child
outputs; for a missing job, a foreign owner, or any other status (processing
and completed included) the request is rejected and the store is unchanged. -/
theorem delete_requires_terminal (db : DbState) (uid generationId : Nat) :
    (∀ gen, db.gens.find? (fun g => decide (g.id = generationId)) = some gen →
      gen.userId = uid → (gen.status = .cancelled ∨ gen.status = .failed) →
      deleteGeneration db (some uid) generationId =
        ({ gens := db.gens.filter (fun g => decide (g.id ≠ generationId))
           outputs := db.outputs.filter
             (fun o => decide (o.generationId ≠ generationId)) },
         .deleted generationId) ∧
      ∀ o ∈ (deleteGeneration db (some uid) generationId).1.outputs,
        o.generationId ≠ generationId) ∧
    (∀ gen, db.gens.find? (fun g => decide (g.id = generationId)) = some gen →
      gen.userId = uid → ¬ (gen.status = .cancelled ∨ gen.status = .failed) →
      deleteGeneration db (some uid) generationId = (db, .badStatus)) ∧
    (db.gens.find? (fun g => decide (g.id = generationId)) = none →
      deleteGeneration db (some uid) generationId = (db, .notFound)) ∧
    (∀ gen, db.gens.find? (fun g => decide (g.id = generationId)) = some gen →
      gen.userId ≠ uid →
      deleteGeneration db (some uid) generationId = (db, .forbidden)) := by
  refine ⟨?_, ?_, ?_, ?_⟩
  · intro gen hfind hown hstat
    have heq : deleteGeneration db (some uid) generationId =
        ({ gens := db.gens.filter (fun g => decide (g.id ≠ generationId))
           outputs := db.outputs.filter
             (fun o => decide (o.generationId ≠ generationId)) },
         .deleted generationId) := by
      simp only [deleteGeneration, hfind]
      rw [if_neg (by simp [hown]), if_neg (not_not.mpr hstat)]
    refine ⟨heq, ?_⟩
    intro o ho
    rw [heq] at ho
    have := (List.mem_filter.mp ho).2
    rw [decide_eq_true_eq] at this
    exact this
  · intro gen hfind hown hstat
    simp only [deleteGeneration, hfind]
    rw [if_neg (by simp [hown]), if_pos hstat]
  · intro hfind
    simp only [deleteGeneration, hfind]
  · intro gen hfind hown
    simp only [deleteGeneration, hfind]
    rw [if_pos hown]

/-- Witness for C9 on a concrete store with one failed job and two outputs,
one of which belongs to the deleted job. -/
theorem delete_requires_terminal_witness :
    (⟨[⟨1, 4, .failed⟩], [⟨10, 1⟩, ⟨11, 2⟩]⟩ : DbState).gens.find?
        (fun g => decide (g.id = 1)) = some ⟨1, 4, .failed⟩ ∧
    deleteGeneration ⟨[⟨1, 4, .failed⟩], [⟨10, 1⟩, ⟨11, 2⟩]⟩ (some 4) 1 =
      (⟨([⟨1, 4, .failed⟩] : List DbGen).filter (fun g => decide (g.id ≠ 1)),
        ([⟨10, 1⟩, ⟨11, 2⟩] : List DbOutput).filter
          (fun o => decide (o.generationId ≠ 1))⟩,
       .deleted 1) :=
  ⟨by decide,
    ((delete_requires_terminal ⟨[⟨1, 4, .failed⟩], [⟨10, 1⟩, ⟨11, 2⟩]⟩ 4 1).1
      ⟨1, 4, .failed⟩ (by decide) (by decide) (by decide)).1⟩

end Latentia